import Mathlib

/-!
Verification of the prov2ld repository (src/prov2ld.py and src/ld2viz.py)
against its natural-language specification.  The Python code is shallowly
embedded: JSON values become the inductive `JValue`, Python dicts become
insertion-ordered association lists with overwrite-preserving-position
semantics (`dictInsert`), and each method of the two converter classes
becomes a Lean function of the same name (camel-cased).  Inputs on which
the Python code would raise an exception (e.g. a non-string `@type` that
is truthy, or iterating a non-dict) are modelled as no-ops / defaults;
every theorem below restricts itself to non-crashing inputs.
-/

/-- JSON values as processed by the two converters.  Numbers are modelled
as integers (the claims never exercise floats). -/
inductive JValue where
  | jnull : JValue
  | jbool : Bool → JValue
  | jint : Int → JValue
  | jstr : String → JValue
  | jarr : List JValue → JValue
  | jobj : List (String × JValue) → JValue

open JValue

/-- A JSON object body: an insertion-ordered association list, keys unique
(as in a Python dict). -/
abbrev Obj := List (String × JValue)

/-- First binding of key `k`, mirroring Python `d.get(k)` / `d[k]` on a
dict (whose keys are unique). -/
def getKey? (fields : Obj) (k : String) : Option JValue :=
  match fields with
  | [] => none
  | (k2, v) :: rest => if k2 = k then some v else getKey? rest k

/-- Python `k in d`. -/
def hasKey (fields : Obj) (k : String) : Bool :=
  (getKey? fields k).isSome

/-- Python dict assignment `d[k] = v`: overwrite in place (keeping the
key's original position) or append at the end. -/
def dictInsert {α : Type} (d : List (String × α)) (k : String) (v : α) :
    List (String × α) :=
  match d with
  | [] => [(k, v)]
  | (k2, w) :: rest =>
      if k2 = k then (k2, v) :: rest else (k2, w) :: dictInsert rest k v

/-- First value bound to `k` in a string-valued table. -/
def lookupStr (d : List (String × String)) (k : String) : Option String :=
  match d with
  | [] => none
  | (k2, v) :: rest => if k2 = k then some v else lookupStr rest k

/-- Python truthiness of a JSON value (`bool(v)`). -/
def JValue.falsy : JValue → Bool
  | jnull => true
  | jbool b => !b
  | jint n => n = 0
  | jstr s => s = ""
  | jarr xs => xs.isEmpty
  | jobj fs => fs.isEmpty

/-- Python truthiness of a `d.get(k)` result (`None` is falsy). -/
def truthy : Option JValue → Bool
  | none => false
  | some v => !v.falsy

mutual
/-- Python `repr` of a JSON value, used only when a container reaches a
string-formatting position (the claims never exercise container cases). -/
def pyRepr : JValue → String
  | jnull => "None"
  | jbool true => "True"
  | jbool false => "False"
  | jint n => toString n
  | jstr s => "\x27" ++ s ++ "\x27"
  | jarr xs => "[" ++ String.intercalate ", " (pyReprList xs) ++ "]"
  | jobj fs => "\x7b" ++ String.intercalate ", " (pyReprFields fs) ++ "\x7d"

/-- Helper of `pyRepr` for lists. -/
def pyReprList : List JValue → List String
  | [] => []
  | x :: xs => pyRepr x :: pyReprList xs

/-- Helper of `pyRepr` for object fields. -/
def pyReprFields : List (String × JValue) → List String
  | [] => []
  | (k, v) :: fs => ("\x27" ++ k ++ "\x27: " ++ pyRepr v) :: pyReprFields fs
end

/-- Python `str()` of a JSON value. -/
def pyStr : JValue → String
  | jstr s => s
  | v => pyRepr v

/-- Character-list view helpers: Python `sub in s` for a single char. -/
def strContainsChar (s : String) (c : Char) : Bool :=
  s.toList.contains c

/-- Python `s.startswith(p)`. -/
def strStartsWith (s p : String) : Bool :=
  p.toList.isPrefixOf s.toList

/-- Python `s.replace(c, r)` for single-character `c`, `r`. -/
def replaceChar (s : String) (c r : Char) : String :=
  String.mk (s.toList.map (fun x => if x = c then r else x))

/-- Python `s.replace(c, '')` for a single-character pattern. -/
def removeChar (s : String) (c : Char) : String :=
  String.mk (s.toList.filter (fun x => !(x = c)))

/-- Python `len(s)` (in characters). -/
def strLen (s : String) : Nat := s.toList.length

/-- First `n` characters of `s` (Python `s[:n]`). -/
def strTake (s : String) (n : Nat) : String := String.mk (s.toList.take n)

/-- Characters of `s` after the first `n` (Python `s[n:]`). -/
def strDrop (s : String) (n : Nat) : String := String.mk (s.toList.drop n)

/-- Split a character list at every occurrence of `c` (Python
`s.split(c)` semantics, including empty segments). -/
def splitCharsOn (c : Char) : List Char → List (List Char)
  | [] => [[]]
  | x :: xs =>
      let r := splitCharsOn c xs
      if x = c then [] :: r
      else
        match r with
        | ys :: rest => (x :: ys) :: rest
        | [] => [[x]]

/-- Python `s.split(c)` for a single-character separator. -/
def pySplit (s : String) (c : Char) : List String :=
  (splitCharsOn c s.toList).map String.mk

/-- Python `s.split(c, 1)[1]`: everything after the first occurrence of
`c` (meaningful only when `c` occurs in `s`). -/
def afterFirstChar (s : String) (c : Char) : String :=
  String.mk ((s.toList.dropWhile (fun x => !(x = c))).drop 1)

/-- Join with separator (Python `sep.join(xs)`). -/
def strJoin (sep : String) : List String → String
  | [] => ""
  | [x] => x
  | x :: xs => x ++ sep ++ strJoin sep xs

/-- Python `s.isalnum()` on its ASCII fragment: nonempty and all
characters ASCII alphanumeric.  Python's `str.isalnum` is Unicode-aware
(for example it accepts accented letters), which a shallow embedding
cannot reproduce; this definition agrees with it exactly on ASCII
strings, and every theorem whose truth depends on the predicate's value
carries an explicit ASCII hypothesis. -/
def pyIsAlnum (s : String) : Bool :=
  !s.toList.isEmpty && s.toList.all Char.isAlphanum

/-- ASCII guard for the `_make_safe_id` theorems: on strings all of
whose characters satisfy it, `pyIsAlnum` coincides with Python's
`str.isalnum()`. -/
def isAsciiChar (c : Char) : Bool :=
  c.toNat < 128

/-!
Embedding of `src/prov2ld.py` (`ProvJsonToJsonldConverter`).
-/

/-- The canonical PROV-JSONLD context IRI (`PROV_JSONLD_CONTEXT`). -/
def PROV_JSONLD_CONTEXT : String :=
  "https://openprovenance.org/prov-jsonld/context.json"

/-- Mapping of PROV-JSON categories to PROV-JSONLD types
(`TYPE_MAPPINGS`), in the source's insertion order. -/
def TYPE_MAPPINGS : List (String × String) :=
  [("entity", "prov:Entity"),
   ("activity", "prov:Activity"),
   ("agent", "prov:Agent"),
   ("wasGeneratedBy", "prov:Generation"),
   ("used", "prov:Usage"),
   ("wasInformedBy", "prov:Communication"),
   ("wasStartedBy", "prov:Start"),
   ("wasEndedBy", "prov:End"),
   ("wasInvalidatedBy", "prov:Invalidation"),
   ("wasDerivedFrom", "prov:Derivation"),
   ("wasAttributedTo", "prov:Attribution"),
   ("wasAssociatedWith", "prov:Association"),
   ("actedOnBehalfOf", "prov:Delegation"),
   ("wasInfluencedBy", "prov:Influence"),
   ("specializationOf", "provext:Specialization"),
   ("alternateOf", "provext:Alternate"),
   ("hadMember", "provext:Membership")]

/-- Per-category relation property mapping from PROV-JSON keys to
PROV-JSONLD keys (`RELATION_PROPERTIES`), each inner map in the
source's insertion order. -/
def RELATION_PROPERTIES : List (String × List (String × String)) :=
  [("wasGeneratedBy",
    [("prov:entity", "entity"), ("prov:activity", "activity"),
     ("prov:time", "time")]),
   ("used",
    [("prov:entity", "entity"), ("prov:activity", "activity"),
     ("prov:time", "time")]),
   ("wasInformedBy",
    [("prov:informed", "informed"), ("prov:informant", "informant")]),
   ("wasStartedBy",
    [("prov:activity", "activity"), ("prov:trigger", "trigger"),
     ("prov:starter", "starter"), ("prov:time", "time")]),
   ("wasEndedBy",
    [("prov:activity", "activity"), ("prov:trigger", "trigger"),
     ("prov:ender", "ender"), ("prov:time", "time")]),
   ("wasInvalidatedBy",
    [("prov:entity", "entity"), ("prov:activity", "activity"),
     ("prov:time", "time")]),
   ("wasDerivedFrom",
    [("prov:generatedEntity", "generatedEntity"),
     ("prov:usedEntity", "usedEntity"), ("prov:activity", "activity"),
     ("prov:generation", "generation"), ("prov:usage", "usage")]),
   ("wasAttributedTo",
    [("prov:entity", "entity"), ("prov:agent", "agent")]),
   ("wasAssociatedWith",
    [("prov:activity", "activity"), ("prov:agent", "agent"),
     ("prov:plan", "plan")]),
   ("actedOnBehalfOf",
    [("prov:delegate", "delegate"), ("prov:responsible", "responsible"),
     ("prov:activity", "activity")]),
   ("wasInfluencedBy",
    [("prov:influencee", "influencee"),
     ("prov:influencer", "influencer")]),
   ("specializationOf",
    [("prov:specificEntity", "specificEntity"),
     ("prov:generalEntity", "generalEntity")]),
   ("alternateOf",
    [("prov:alternate1", "alternate1"), ("prov:alternate2", "alternate2")]),
   ("hadMember",
    [("prov:collection", "collection"), ("prov:entity", "entity")])]

/-- Lookup in `RELATION_PROPERTIES`. -/
def relationProps? (cat : String) : Option (List (String × String)) :=
  match RELATION_PROPERTIES.find? (fun p => p.1 = cat) with
  | some p => some p.2
  | none => none

/-- One element of `_convert_value`'s loop body: conversion of a single
item of the (list-wrapped) value. -/
def convertValueItem (v : JValue) : JValue :=
  match v with
  | jobj fs =>
      if hasKey fs "$" || hasKey fs "type" then
        jobj
          ((match getKey? fs "$" with
            | some d => [("@value", d)]
            | none => []) ++
           (match getKey? fs "type" with
            | some t => [("@type", t)]
            | none => []) ++
           (match getKey? fs "lang" with
            | some l => [("@language", l)]
            | none => []))
      else jobj fs
  | other => jobj [("@value", jstr (pyStr other))]

/-- `_convert_value`: wrap a (possibly scalar) attribute value into a
list of JSON-LD value objects. -/
def convertValue (value : JValue) : JValue :=
  match value with
  | jarr xs => jarr (xs.map convertValueItem)
  | v => jarr [convertValueItem v]

/-- One element of `_convert_label`'s loop body. -/
def convertLabelItem (v : JValue) : JValue :=
  match v with
  | jobj fs =>
      jobj
        ([("@value", (getKey? fs "$").getD (jstr ""))] ++
         (match getKey? fs "lang" with
          | some l => [("@language", l)]
          | none => []))
  | other => jobj [("@value", jstr (pyStr other))]

/-- `_convert_label`: like `_convert_value` but always emitting an
`@value` key (empty string when `$` is absent) and never an `@type`. -/
def convertLabel (value : JValue) : JValue :=
  match value with
  | jarr xs => jarr (xs.map convertLabelItem)
  | v => jarr [convertLabelItem v]

/-- One step of `_convert_element`'s attribute loop: possibly insert the
converted form of field `(key, value)` into the object being built. -/
def elementStep (obj : Obj) (field : String × JValue) : Obj :=
  if field.1 = "prov:type" then
    dictInsert obj "prov:type" (convertValue field.2)
  else if field.1 = "prov:label" then
    dictInsert obj "prov:label" (convertLabel field.2)
  else if field.1 = "prov:location" then
    dictInsert obj "prov:location" (convertValue field.2)
  else if field.1 = "prov:value" then
    dictInsert obj "prov:value" (convertValue field.2)
  else if strStartsWith field.1 "prov:" then
    dictInsert obj field.1 (convertValue field.2)
  else if strContainsChar field.1 ':' then
    dictInsert obj field.1 (convertValue field.2)
  else obj

/-- `_convert_element`: convert an element (entity/activity/agent)
record.  A non-object record would crash the Python code (`.items()` on
a non-dict); it is modelled as contributing no attributes. -/
def convertElement (itemId : String) (itemData : JValue) (typeName : String) :
    Obj :=
  let base : Obj := [("@type", jstr typeName), ("@id", jstr itemId)]
  match itemData with
  | jobj fs =>
      let obj := fs.foldl elementStep base
      if typeName = "prov:Activity" then
        let obj2 :=
          match getKey? fs "prov:startTime" with
          | some v => dictInsert obj "startTime" v
          | none => obj
        match getKey? fs "prov:endTime" with
        | some v => dictInsert obj2 "endTime" v
        | none => obj2
      else obj
  | _ => base

/-- One step of `_convert_relation`'s second loop (attributes not in the
property map). -/
def relationAttrStep (pm : List (String × String)) (obj : Obj)
    (field : String × JValue) : Obj :=
  if pm.any (fun p => p.1 = field.1) then obj
  else if field.1 = "prov:type" then
    dictInsert obj "prov:type" (convertValue field.2)
  else if field.1 = "prov:label" then
    dictInsert obj "prov:label" (convertLabel field.2)
  else if field.1 = "prov:location" then
    dictInsert obj "prov:location" (convertValue field.2)
  else if field.1 = "prov:role" then
    dictInsert obj "prov:role" (convertValue field.2)
  else if strStartsWith field.1 "prov:" then
    dictInsert obj field.1 (convertValue field.2)
  else if strContainsChar field.1 ':' then
    dictInsert obj field.1 (convertValue field.2)
  else obj

/-- `_convert_relation`: convert one relation record.  Both branches of
the source's `@id` handling attach the identifier, so the net effect is
"attach `@id` iff the identifier is non-empty". -/
def convertRelation (itemId : String) (itemData : JValue)
    (typeName : String) (category : String) : Obj :=
  let base : Obj :=
    if itemId = "" then [("@type", jstr typeName)]
    else [("@type", jstr typeName), ("@id", jstr itemId)]
  let pm := (relationProps? category).getD []
  match itemData with
  | jobj fs =>
      let obj := pm.foldl
        (fun o kv =>
          match getKey? fs kv.1 with
          | some v => dictInsert o kv.2 v
          | none => o) base
      fs.foldl (relationAttrStep pm) obj
  | _ => base

/-- `_convert_item`: dispatch between relation and element conversion. -/
def convertItem (itemId : String) (itemData : JValue) (typeName : String)
    (category : String) : Obj :=
  if (relationProps? category).isSome then
    convertRelation itemId itemData typeName category
  else convertElement itemId itemData typeName

/-- `_convert_category`: one converted object per entry, in input
order. -/
def convertCategory (category : String) (items : Obj) (typeName : String) :
    List JValue :=
  items.map (fun p => jobj (convertItem p.1 p.2 typeName category))

/-- The loop of `convert` over `TYPE_MAPPINGS`: collect converted
statements category by category. -/
def convertCategories (doc : Obj) : List (String × String) → List JValue
  | [] => []
  | (cat, ty) :: rest =>
      (match getKey? doc cat with
       | some (jobj items) => convertCategory cat items ty
       | _ => []) ++ convertCategories doc rest

/-- `_extract_namespaces` of the importer: the `prefix` object if
present. -/
def p2lNamespaces (doc : Obj) : Obj :=
  match getKey? doc "prefix" with
  | some (jobj ps) => ps
  | _ => []

/-- `_build_context`: optional namespace object followed by the canonical
context IRI. -/
def buildContext (namespaces : Obj) : JValue :=
  jarr
    ((if namespaces.isEmpty then [] else [jobj namespaces]) ++
     [jstr PROV_JSONLD_CONTEXT])

/-- `_convert_bundle`: a nested bundle object with its own context and
graph. -/
def convertBundle (bundleId : String) (bundleData : JValue) : JValue :=
  let bfs : Obj := match bundleData with | jobj fs => fs | _ => []
  let bns : Obj :=
    match getKey? bfs "prefix" with
    | some (jobj ps) => ps
    | _ => []
  jobj
    [("@type", jstr "prov:Bundle"),
     ("@id", jstr bundleId),
     ("@context", buildContext bns),
     ("@graph", jarr (convertCategories bfs TYPE_MAPPINGS))]

/-- `convert` of `ProvJsonToJsonldConverter`: the full PROV-JSON to
PROV-JSONLD conversion. -/
def p2lConvert (doc : Obj) : Obj :=
  let ns := p2lNamespaces doc
  let ctx := buildContext ns
  let bundleObjs : List JValue :=
    match getKey? doc "bundle" with
    | some (jobj bundles) =>
        bundles.map (fun p => convertBundle p.1 p.2)
    | _ => []
  let graph := bundleObjs ++ convertCategories doc TYPE_MAPPINGS
  [("@context", ctx), ("@graph", jarr graph)]

/-!
Embedding of `src/ld2viz.py` (`ProvJsonldToGraphviz`).
-/

/-- Shapes for node types (`NODE_SHAPES`). -/
def NODE_SHAPES : List (String × String) :=
  [("prov:Entity", "ellipse"),
   ("prov:Activity", "box"),
   ("prov:Agent", "house")]

/-- Colors for node types (`NODE_COLORS`). -/
def NODE_COLORS : List (String × String) :=
  [("prov:Entity", "#FFFC87"),
   ("prov:Activity", "#9FB1FC"),
   ("prov:Agent", "#FDB266")]

/-- One entry of `EDGE_STYLES`: label/style/dir always present in the
source table, color and arrowhead only sometimes. -/
structure EdgeStyle where
  label : String
  style : String
  dir : String
  color : Option String := none
  arrowhead : Option String := none

/-- Edge styles for relation types (`EDGE_STYLES`). -/
def EDGE_STYLES : List (String × EdgeStyle) :=
  [("prov:Generation",
    { label := "wasGeneratedBy", style := "solid", dir := "back",
      color := some "#006400" }),
   ("prov:Usage",
    { label := "used", style := "solid", dir := "forward",
      color := some "#8b0101" }),
   ("prov:Derivation",
    { label := "wasDerivedFrom", style := "solid", dir := "back" }),
   ("prov:Association",
    { label := "wasAssociatedWith", style := "solid", dir := "forward",
      color := some "#fed37f" }),
   ("prov:Attribution",
    { label := "wasAttributedTo", style := "dashed", dir := "back" }),
   ("prov:Communication",
    { label := "wasInformedBy", style := "solid", dir := "back" }),
   ("prov:Delegation",
    { label := "actedOnBehalfOf", style := "dashed", dir := "back" }),
   ("prov:Start",
    { label := "wasStartedBy", style := "solid", dir := "back" }),
   ("prov:End",
    { label := "wasEndedBy", style := "solid", dir := "back" }),
   ("prov:Invalidation",
    { label := "wasInvalidatedBy", style := "solid", dir := "back" }),
   ("prov:Influence",
    { label := "wasInfluencedBy", style := "dotted", dir := "back" }),
   ("provext:Specialization",
    { label := "specializationOf", style := "solid", dir := "back",
      arrowhead := some "onormal" }),
   ("provext:Alternate",
    { label := "alternateOf", style := "dashed", dir := "none" }),
   ("provext:Membership",
    { label := "hadMember", style := "dotted", dir := "forward" })]

/-- Lookup in `EDGE_STYLES` (Python `EDGE_STYLES.get(t)`). -/
def edgeStyle? (t : String) : Option EdgeStyle :=
  match EDGE_STYLES.find? (fun p => p.1 = t) with
  | some p => some p.2
  | none => none

/-- Properties that reference other nodes (`REFERENCE_PROPERTIES`). -/
def REFERENCE_PROPERTIES : List String :=
  ["entity", "activity", "agent", "generatedEntity", "usedEntity",
   "informed", "informant", "trigger", "starter", "ender",
   "delegate", "responsible", "plan", "influencee", "influencer",
   "specificEntity", "generalEntity", "alternate1", "alternate2",
   "collection", "generation", "usage"]

/-- Visual descriptor of one node, mirroring the dict built in
`_process_node` (field `nodeType` models the Python key `type`). -/
structure NodeProps where
  label : JValue
  shape : String
  fillcolor : String
  style : String
  nodeType : String

/-- Visual descriptor of one edge, mirroring the dict built in
`_process_simple_relation`. -/
structure Edge where
  source : JValue
  target : JValue
  style : String
  dir : String
  arrowhead : String
  color : Option String
  label : Option String

/-- State of a `ProvJsonldToGraphviz` instance. -/
structure VizState where
  showAttributes : Bool
  showRelationLabels : Bool
  direction : String
  nodes : List (String × NodeProps)
  edges : List Edge
  namespaces : Obj

/-- The `__init__` state: `show_relation_labels` is always `True` and is
never mutated anywhere in the class. -/
def initViz (showAttrs : Bool) (dir : String) : VizState :=
  { showAttributes := showAttrs, showRelationLabels := true,
    direction := dir, nodes := [], edges := [], namespaces := [] }

/-- `_extract_namespaces` of the visualizer: merge every dict element of
the `@context` list into the namespace map (non-list contexts contribute
nothing, as iterating them yields no dict). -/
def vizExtractNamespaces (ns : Obj) (ctx : Option JValue) : Obj :=
  match ctx with
  | some (jarr xs) =>
      xs.foldl
        (fun acc c =>
          match c with
          | jobj fs => fs.foldl (fun a p => dictInsert a p.1 p.2) acc
          | _ => acc) ns
  | _ => ns

/-- `_shorten_uri`: compact a full IRI to `prefix:local` using the first
matching namespace in map order. -/
def shortenUri (ns : Obj) (uri : String) : String :=
  if uri = "" || !strContainsChar uri ':' then uri
  else if !strStartsWith uri "http://" && !strStartsWith uri "https://" then
    uri
  else
    match ns.find? (fun p =>
      match p.2 with
      | jstr n => strStartsWith uri n
      | _ => false) with
    | some (pfx, jstr n) => pfx ++ ":" ++ strDrop uri (strLen n)
    | _ => uri

/-- The `prov:label` branch of `_get_label`: only a nonempty list whose
head is a dict carrying `@value` yields a label. -/
def provLabelValue (item : Obj) : Option JValue :=
  match getKey? item "prov:label" with
  | some (jarr (l :: _)) =>
      (match l with
       | jobj fs => getKey? fs "@value"
       | _ => none)
  | _ => none

/-- One step of `_get_label`'s loop over the other label properties: a
nonempty list whose head is a dict carrying `@value`, or a plain string
head, yields a label. -/
def propLabelValue (item : Obj) (pr : String) : Option JValue :=
  match getKey? item pr with
  | some (jarr (v :: _)) =>
      (match v with
       | jobj fs => getKey? fs "@value"
       | jstr s => some (jstr s)
       | _ => none)
  | _ => none

/-- The loop of `_get_label` over `rdfs:label`, `foaf:name`,
`dcterms:title`, `name`, `title` (first hit wins). -/
def firstPropLabel (item : Obj) : List String → Option JValue
  | [] => none
  | pr :: ps =>
      match propLabelValue item pr with
      | some v => some v
      | none => firstPropLabel item ps

/-- The `@id` fallback of `_get_label`: strip everything up to the first
colon; an empty (or absent) id gives "anonymous".  A truthy non-string
`@id` would crash the Python code; it is modelled as "anonymous". -/
def idFallbackLabel (item : Obj) : JValue :=
  match getKey? item "@id" with
  | some (jstr s) =>
      if s = "" then jstr "anonymous"
      else if strContainsChar s ':' then jstr (afterFirstChar s ':')
      else jstr s
  | _ => jstr "anonymous"

/-- `_get_label`, translated with the source's early-return structure. -/
def getLabel (item : Obj) : JValue :=
  match provLabelValue item with
  | some v => v
  | none =>
      match firstPropLabel item
          ["rdfs:label", "foaf:name", "dcterms:title", "name", "title"] with
      | some v => v
      | none => idFallbackLabel item

/-- Truncation used by `_get_attributes_text`: values longer than 30
characters are cut to 27 plus an ellipsis. -/
def truncate30 (s : String) : String :=
  if 30 < strLen s then strTake s 27 ++ "..." else s

/-- Keys skipped by `_get_attributes_text` (`skip_props`). -/
def SKIP_PROPS : List String :=
  ["@type", "@id", "@context", "@graph", "prov:label", "rdfs:label",
   "foaf:name", "dcterms:title"] ++ REFERENCE_PROPERTIES

/-- Attribute lines contributed by a single list element in
`_get_attributes_text`. -/
def attrOfListItem (shortKey : String) (v : JValue) : List String :=
  match v with
  | jobj fs =>
      (match getKey? fs "@value" with
       | some w => [shortKey ++ "=" ++ truncate30 (pyStr w)]
       | none => [])
  | jstr s => [shortKey ++ "=" ++ truncate30 s]
  | _ => []

/-- Attribute lines contributed by one item field in
`_get_attributes_text`. -/
def attrOfField (ns : Obj) (field : String × JValue) : List String :=
  let key := field.1
  let value := field.2
  if SKIP_PROPS.contains key then []
  else
    let shortKey := if strContainsChar key ':' then shortenUri ns key else key
    match value with
    | jarr (x :: xs) => ((x :: xs).take 3).flatMap (attrOfListItem shortKey)
    | jstr s => [shortKey ++ "=" ++ truncate30 s]
    | _ => []

/-- `_get_attributes_text`. -/
def getAttributesText (ns : Obj) (item : Obj) : List String :=
  item.flatMap (attrOfField ns)

/-- The node key chosen by `_process_node`: the `@id` if present,
otherwise the synthetic `anon_<number of nodes so far>`.  (A non-string
`@id` would become a non-string dict key in Python; it is modelled by its
string form.) -/
def nodeKey (st : VizState) (item : Obj) : String :=
  match getKey? item "@id" with
  | some (jstr s) => s
  | some v => pyStr v
  | none => "anon_" ++ Nat.repr st.nodes.length

/-- The descriptor dict built by `_process_node`. -/
def mkNodeProps (st : VizState) (item : Obj) (itemType : String) :
    NodeProps :=
  let label0 := getLabel item
  let label :=
    if st.showAttributes then
      let attrs := getAttributesText st.namespaces item
      if attrs.isEmpty then label0
      else jstr (pyStr label0 ++ "\\n" ++ strJoin "\\n" (attrs.take 5))
    else label0
  { label := label,
    shape := (lookupStr NODE_SHAPES itemType).getD "ellipse",
    fillcolor := (lookupStr NODE_COLORS itemType).getD "#FFFFFF",
    style := "filled",
    nodeType := itemType }

/-- `_process_node`: register (or overwrite) the node descriptor under
its key. -/
def processNode (st : VizState) (item : Obj) (itemType : String) :
    VizState :=
  let newNodes := dictInsert st.nodes (nodeKey st item)
    (mkNodeProps st item itemType)
  { st with nodes := newNodes }

/-- The per-type endpoint property table of `_get_edge_endpoints`:
`some (sourceKey, targetKey)` for each recognized relation type. -/
def ENDPOINT_KEYS (relationType : String) : Option (String × String) :=
  if relationType = "prov:Generation" then some ("activity", "entity")
  else if relationType = "prov:Usage" then some ("activity", "entity")
  else if relationType = "prov:Derivation" then
    some ("usedEntity", "generatedEntity")
  else if relationType = "prov:Association" then some ("activity", "agent")
  else if relationType = "prov:Attribution" then some ("entity", "agent")
  else if relationType = "prov:Communication" then
    some ("informant", "informed")
  else if relationType = "prov:Delegation" then
    some ("responsible", "delegate")
  else if relationType = "prov:Start" then some ("trigger", "activity")
  else if relationType = "prov:End" then some ("trigger", "activity")
  else if relationType = "prov:Invalidation" then some ("activity", "entity")
  else if relationType = "prov:Influence" then
    some ("influencer", "influencee")
  else if relationType = "provext:Specialization" then
    some ("generalEntity", "specificEntity")
  else if relationType = "provext:Alternate" then
    some ("alternate1", "alternate2")
  else if relationType = "provext:Membership" then
    some ("collection", "entity")
  else none

/-- `_get_edge_endpoints`: look up the two endpoint properties of the
item for its relation type. -/
def getEdgeEndpoints (item : Obj) (relationType : String) :
    Option JValue × Option JValue :=
  match ENDPOINT_KEYS relationType with
  | some (k1, k2) => (getKey? item k1, getKey? item k2)
  | none => (none, none)

/-- The `prov:role` annotation value of `_process_simple_relation`: the
`@value` of the head of a nonempty `prov:role` list, when that head is a
dict carrying `@value`. -/
def roleSuffixVal (item : Obj) : Option JValue :=
  match getKey? item "prov:role" with
  | some (jarr (r :: _)) =>
      (match r with
       | jobj fs => getKey? fs "@value"
       | _ => none)
  | _ => none

/-- The time annotation of `_process_simple_relation`: from
`item.get('time', item.get('prov:time'))`, when it is a string
containing 'T', Python's `time_val.split('T')[1].split('.')[0]` — the
second segment of the full 'T'-split (so it ends at a second 'T' if one
occurs), truncated at its first '.'. -/
def timeSuffixVal (item : Obj) : Option String :=
  let timeVal : Option JValue :=
    match getKey? item "time" with
    | some v => some v
    | none => getKey? item "prov:time"
  match timeVal with
  | some (jstr s) =>
      if strContainsChar s 'T' then
        some ((pySplit ((pySplit s 'T').getD 1 "") '.').headD "")
      else none
  | _ => none

/-- The `extra_info` list of `_process_simple_relation`: role annotation
first, then time annotation. -/
def extraInfo (item : Obj) : List String :=
  (match roleSuffixVal item with
   | some v => ["role:" ++ pyStr v]
   | none => []) ++
  (match timeSuffixVal item with
   | some t => ["@" ++ t]
   | none => [])

/-- The edge label computed by `_process_simple_relation` when
`show_relation_labels` holds. -/
def edgeLabel (item : Obj) (relationType : String) : String :=
  let base :=
    match edgeStyle? relationType with
    | some e => e.label
    | none => (pySplit relationType ':').getD 1 ""
  match extraInfo item with
  | [] => base
  | infos => base ++ "\\n(" ++ strJoin ", " infos ++ ")"

/-- `_process_simple_relation`: emit one edge when both endpoints are
truthy, nothing otherwise. -/
def processSimpleRelation (st : VizState) (item : Obj)
    (relationType : String) : VizState :=
  let es := edgeStyle? relationType
  let endpoints := getEdgeEndpoints item relationType
  if truthy endpoints.1 && truthy endpoints.2 then
    let edge : Edge :=
      { source := endpoints.1.getD jnull,
        target := endpoints.2.getD jnull,
        style := (match es with | some e => e.style | none => "solid"),
        dir := (match es with | some e => e.dir | none => "forward"),
        arrowhead :=
          (match es with
           | some e => e.arrowhead.getD "normal"
           | none => "normal"),
        color := (match es with | some e => e.color | none => none),
        label :=
          if st.showRelationLabels then some (edgeLabel item relationType)
          else none }
    { st with edges := st.edges ++ [edge] }
  else st

/-- The dispatch of `convert` on one `@graph` item: node types go to
`_process_node`, other `prov:`/`provext:` types to the relation path
(`_process_relation` just forwards to `_process_simple_relation`), and
anything else is skipped.  Non-dict items and truthy non-string `@type`
values would crash the Python code; they are modelled as skipped. -/
def processItem (st : VizState) (item : JValue) : VizState :=
  match item with
  | jobj fields =>
      (match getKey? fields "@type" with
       | some (jstr t) =>
           if (lookupStr NODE_SHAPES t).isSome then processNode st fields t
           else if strStartsWith t "prov:" || strStartsWith t "provext:" then
             processSimpleRelation st fields t
           else st
       | _ => st)
  | _ => st

/-- The loop of `convert` over the `@graph` list. -/
def processGraph (st : VizState) : List JValue → VizState
  | [] => st
  | it :: rest => processGraph (processItem st it) rest

/-- The state after `convert` has processed a whole PROV-JSONLD document
(namespaces first, then every graph item). -/
def buildViz (showAttrs : Bool) (dir : String) (doc : Obj) : VizState :=
  let st0 := initViz showAttrs dir
  let st1 :=
    { st0 with namespaces :=
        vizExtractNamespaces st0.namespaces (getKey? doc "@context") }
  let graphItems :=
    match getKey? doc "@graph" with
    | some (jarr xs) => xs
    | _ => []
  processGraph st1 graphItems

/-- The sanitization step of `_make_safe_id`: replace each occurrence of
`: / - . #` with an underscore. -/
def sanitizeId (nodeId : String) : String :=
  replaceChar (replaceChar (replaceChar (replaceChar (replaceChar
    nodeId ':' '_') '/' '_') '-' '_') '.' '_') '#' '_'

/-- `_make_safe_id`: sanitize by mapping `: / - . #` to underscore; fall
back to quoting the original identifier whenever the sanitized form,
with its underscores removed, is not a nonempty alphanumeric string
(Python `safe_id.replace('_', '').isalnum()`).  Via `pyIsAlnum` the
alphanumeric test is the ASCII fragment of Python's Unicode-aware
`isalnum`, so this definition is faithful on ASCII identifiers; the
quoting-rule theorem below is stated under an ASCII hypothesis, and its
other uses (state equalities, line counts, concrete ASCII inputs) do
not depend on the predicate's value. -/
def makeSafeId (nodeId : String) : String :=
  if pyIsAlnum (removeChar (sanitizeId nodeId) '_') then sanitizeId nodeId
  else "\"" ++ nodeId ++ "\""

/-- String form of an edge endpoint as it reaches `_make_safe_id` (the
stored endpoint value is a string on all non-crashing inputs). -/
def endpointIdString : JValue → String
  | jstr s => s
  | v => pyStr v

/-- One node statement of `_generate_dot`, property order as in the
descriptor dict: label, shape, fillcolor, style, type. -/
def nodeLine (nodeId : String) (p : NodeProps) : String :=
  "  " ++ makeSafeId nodeId ++ " [" ++
    strJoin ", "
      ["label=\"" ++ pyStr p.label ++ "\"",
       "shape=\"" ++ p.shape ++ "\"",
       "fillcolor=\"" ++ p.fillcolor ++ "\"",
       "style=\"" ++ p.style ++ "\"",
       "type=\"" ++ p.nodeType ++ "\""] ++ "];"

/-- One edge statement of `_generate_dot`, property order: label (when
present and nonempty), style, dir, color (when present), arrowhead. -/
def edgeLine (e : Edge) : String :=
  let props :=
    (match e.label with
     | some l => if l = "" then [] else ["label=\"" ++ l ++ "\""]
     | none => []) ++
    ["style=" ++ e.style, "dir=" ++ e.dir] ++
    (match e.color with
     | some c => ["color=\"" ++ c ++ "\""]
     | none => []) ++
    ["arrowhead=" ++ e.arrowhead]
  let base := "  " ++ makeSafeId (endpointIdString e.source) ++ " -> " ++
    makeSafeId (endpointIdString e.target)
  match props with
  | [] => base ++ ";"
  | ps => base ++ " [" ++ strJoin ", " ps ++ "];"

/-- The node statements of `_generate_dot`, one per entry of the node
dict, in insertion order. -/
def dotNodeLines (st : VizState) : List String :=
  st.nodes.map (fun p => nodeLine p.1 p.2)

/-- All lines of `_generate_dot`. -/
def dotLines (st : VizState) : List String :=
  ["digraph PROV \x7b",
   "  rankdir=" ++ st.direction ++ ";",
   "  node [fontname=\"Helvetica\"];",
   "  edge [fontname=\"Helvetica\"];",
   ""] ++
  dotNodeLines st ++ [""] ++
  st.edges.map edgeLine ++ ["\x7d"]

/-- `_generate_dot`: the DOT text. -/
def generateDot (st : VizState) : String :=
  strJoin "\n" (dotLines st)

/-- The full reverse pipeline `convert` of `ProvJsonldToGraphviz`. -/
def vizConvert (showAttrs : Bool) (dir : String) (doc : Obj) : String :=
  generateDot (buildViz showAttrs dir doc)

/-!
General helper lemmas about the dictionary model and strings.
-/

/-- Generic association-list lookup (used for node descriptors). -/
def alistFind? {α : Type} (d : List (String × α)) (k : String) : Option α :=
  match d with
  | [] => none
  | (k2, v) :: rest => if k2 = k then some v else alistFind? rest k

theorem alistFind?_dictInsert_self {α : Type} (d : List (String × α))
    (k : String) (v : α) : alistFind? (dictInsert d k v) k = some v := by
  induction d with
  | nil => simp [dictInsert, alistFind?]
  | cons p rest ih =>
      by_cases h : p.1 = k
      · simp [dictInsert, alistFind?, h]
      · simp [dictInsert, alistFind?, h, ih]

theorem getKey?_dictInsert_ne (d : Obj) (k k2 : String) (v : JValue)
    (h : k2 ≠ k) : getKey? (dictInsert d k2 v) k = getKey? d k := by
  induction d with
  | nil => simp [dictInsert, getKey?, h]
  | cons p rest ih =>
      by_cases hp : p.1 = k2
      · simp [dictInsert, getKey?, hp, h]
      · simp [dictInsert, getKey?, hp, ih]

theorem getKey?_dictInsert_self (d : Obj) (k : String) (v : JValue) :
    getKey? (dictInsert d k v) k = some v := by
  induction d with
  | nil => simp [dictInsert, getKey?]
  | cons p rest ih =>
      by_cases h : p.1 = k
      · simp [dictInsert, getKey?, h]
      · simp [dictInsert, getKey?, h, ih]

theorem dictInsert_of_fresh {α : Type} (d : List (String × α))
    (k : String) (v : α) (h : k ∉ d.map Prod.fst) :
    dictInsert d k v = d ++ [(k, v)] := by
  induction d with
  | nil => simp [dictInsert]
  | cons p rest ih =>
      simp only [List.map_cons, List.mem_cons] at h
      push_neg at h
      have hne : ¬ p.1 = k := fun hh => h.1 hh.symm
      simp [dictInsert, hne, ih h.2]

theorem keys_dictInsert {α : Type} (d : List (String × α)) (k : String)
    (v : α) :
    (dictInsert d k v).map Prod.fst =
      if k ∈ d.map Prod.fst then d.map Prod.fst
      else d.map Prod.fst ++ [k] := by
  induction d with
  | nil => simp [dictInsert]
  | cons p rest ih =>
      by_cases h : p.1 = k
      · simp [dictInsert, h]
      · have hne : ¬ k = p.1 := fun hh => h hh.symm
        by_cases hm : k ∈ rest.map Prod.fst
        · simp [dictInsert, h, ih, hm, hne]
        · simp [dictInsert, h, ih, hm, hne]

theorem nodup_keys_dictInsert {α : Type} (d : List (String × α))
    (k : String) (v : α) (h : (d.map Prod.fst).Nodup) :
    ((dictInsert d k v).map Prod.fst).Nodup := by
  rw [keys_dictInsert]
  by_cases hm : k ∈ d.map Prod.fst
  · simpa [hm]
  · simp [hm, List.nodup_append, h]

theorem strEq_of_data (a b : String) (h : a.data = b.data) : a = b :=
  congrArg String.mk h

theorem colon_of_startsWith_prov (s : String)
    (h : strStartsWith s "prov:" = true) : strContainsChar s ':' = true := by
  have hp : ("prov:" : String).toList <+: s.toList :=
    List.isPrefixOf_iff_prefix.mp h
  have hmem : ':' ∈ s.toList := hp.subset (by decide)
  exact List.elem_eq_true_of_mem hmem

theorem ne_of_colon (a k : String) (ha : strContainsChar a ':' = true)
    (hk : strContainsChar k ':' = false) : a ≠ k := by
  intro h
  rw [h] at ha
  rw [ha] at hk
  exact Bool.noConfusion hk

/-!
Preservation lemmas: the attribute loops of the PROV-JSON importer only
insert colon-containing keys (plus `startTime`/`endTime` for
activities), so colon-free keys such as `@type`, `@id`, `activity`,
`entity` keep their bindings.
-/

theorem elementStep_preserves (o : Obj) (f : String × JValue) (k : String)
    (hk : strContainsChar k ':' = false) :
    getKey? (elementStep o f) k = getKey? o k := by
  unfold elementStep
  split_ifs with h1 h2 h3 h4 h5 h6
  · exact getKey?_dictInsert_ne o k "prov:type" _ (ne_of_colon _ _ (by decide) hk)
  · exact getKey?_dictInsert_ne o k "prov:label" _ (ne_of_colon _ _ (by decide) hk)
  · exact getKey?_dictInsert_ne o k "prov:location" _ (ne_of_colon _ _ (by decide) hk)
  · exact getKey?_dictInsert_ne o k "prov:value" _ (ne_of_colon _ _ (by decide) hk)
  · exact getKey?_dictInsert_ne o k f.1 _
      (ne_of_colon _ _ (colon_of_startsWith_prov _ h5) hk)
  · exact getKey?_dictInsert_ne o k f.1 _ (ne_of_colon _ _ h6 hk)
  · rfl

theorem foldl_elementStep_preserves (fs : Obj) (o : Obj) (k : String)
    (hk : strContainsChar k ':' = false) :
    getKey? (fs.foldl elementStep o) k = getKey? o k := by
  induction fs generalizing o with
  | nil => rfl
  | cons f rest ih =>
      simp only [List.foldl_cons]
      rw [ih (elementStep o f), elementStep_preserves o f k hk]

theorem relationAttrStep_preserves (pm : List (String × String)) (o : Obj)
    (f : String × JValue) (k : String)
    (hk : strContainsChar k ':' = false) :
    getKey? (relationAttrStep pm o f) k = getKey? o k := by
  unfold relationAttrStep
  split_ifs with h0 h1 h2 h3 h4 h5 h6
  · rfl
  · exact getKey?_dictInsert_ne o k "prov:type" _ (ne_of_colon _ _ (by decide) hk)
  · exact getKey?_dictInsert_ne o k "prov:label" _ (ne_of_colon _ _ (by decide) hk)
  · exact getKey?_dictInsert_ne o k "prov:location" _ (ne_of_colon _ _ (by decide) hk)
  · exact getKey?_dictInsert_ne o k "prov:role" _ (ne_of_colon _ _ (by decide) hk)
  · exact getKey?_dictInsert_ne o k f.1 _
      (ne_of_colon _ _ (colon_of_startsWith_prov _ h5) hk)
  · exact getKey?_dictInsert_ne o k f.1 _ (ne_of_colon _ _ h6 hk)
  · rfl

theorem foldl_relationAttrStep_preserves (pm : List (String × String))
    (fs : Obj) (o : Obj) (k : String)
    (hk : strContainsChar k ':' = false) :
    getKey? (fs.foldl (relationAttrStep pm) o) k = getKey? o k := by
  induction fs generalizing o with
  | nil => rfl
  | cons f rest ih =>
      simp only [List.foldl_cons]
      rw [ih (relationAttrStep pm o f), relationAttrStep_preserves pm o f k hk]

theorem getKey?_convertElement_noColon (itemId : String) (fs : Obj)
    (ty : String) (k : String) (hk : strContainsChar k ':' = false)
    (h1 : k ≠ "startTime") (h2 : k ≠ "endTime") :
    getKey? (convertElement itemId (jobj fs) ty) k =
      getKey? [("@type", jstr ty), ("@id", jstr itemId)] k := by
  have hfold := foldl_elementStep_preserves fs
    [("@type", jstr ty), ("@id", jstr itemId)] k hk
  simp only [convertElement]
  by_cases hty : ty = "prov:Activity"
  · subst hty
    rw [if_pos rfl]
    rcases hs : getKey? fs "prov:startTime" with _ | sv <;>
      rcases he : getKey? fs "prov:endTime" with _ | ev <;>
        simp only [hs, he, getKey?_dictInsert_ne _ _ _ _ (Ne.symm h1),
          getKey?_dictInsert_ne _ _ _ _ (Ne.symm h2)] <;>
        exact hfold
  · rw [if_neg hty]
    exact hfold

theorem convertElement_type (itemId : String) (fs : Obj) (ty : String) :
    getKey? (convertElement itemId (jobj fs) ty) "@type" = some (jstr ty) := by
  rw [getKey?_convertElement_noColon itemId fs ty "@type" (by decide)
    (by decide) (by decide)]
  rfl

theorem getKey?_relBase_type (gid ty : String) :
    getKey? (if gid = "" then [("@type", jstr ty)]
             else [("@type", jstr ty), ("@id", jstr gid)]) "@type" =
      some (jstr ty) := by
  by_cases hg : gid = "" <;> simp [hg, getKey?]

theorem convertRelation_wgb_fields (gid ty : String) (gfs : Obj)
    (av ev : JValue)
    (hgact : getKey? gfs "prov:activity" = some av)
    (hgent : getKey? gfs "prov:entity" = some ev) :
    getKey? (convertRelation gid (jobj gfs) ty "wasGeneratedBy") "@type" =
      some (jstr ty) ∧
    getKey? (convertRelation gid (jobj gfs) ty "wasGeneratedBy") "activity" =
      some av ∧
    getKey? (convertRelation gid (jobj gfs) ty "wasGeneratedBy") "entity" =
      some ev := by
  have hpm : (relationProps? "wasGeneratedBy").getD [] =
      [("prov:entity", "entity"), ("prov:activity", "activity"),
       ("prov:time", "time")] := rfl
  simp only [convertRelation, hpm, List.foldl_cons, List.foldl_nil,
    hgent, hgact]
  rcases ht : getKey? gfs "prov:time" with _ | tv <;>
    simp only [ht] <;>
    refine ⟨?_, ?_, ?_⟩
  · rw [foldl_relationAttrStep_preserves _ _ _ _ (by decide),
      getKey?_dictInsert_ne _ _ _ _ (by decide),
      getKey?_dictInsert_ne _ _ _ _ (by decide)]
    exact getKey?_relBase_type gid ty
  · rw [foldl_relationAttrStep_preserves _ _ _ _ (by decide)]
    exact getKey?_dictInsert_self _ _ _
  · rw [foldl_relationAttrStep_preserves _ _ _ _ (by decide),
      getKey?_dictInsert_ne _ _ _ _ (by decide)]
    exact getKey?_dictInsert_self _ _ _
  · rw [foldl_relationAttrStep_preserves _ _ _ _ (by decide),
      getKey?_dictInsert_ne _ _ _ _ (by decide),
      getKey?_dictInsert_ne _ _ _ _ (by decide),
      getKey?_dictInsert_ne _ _ _ _ (by decide)]
    exact getKey?_relBase_type gid ty
  · rw [foldl_relationAttrStep_preserves _ _ _ _ (by decide),
      getKey?_dictInsert_ne _ _ _ _ (by decide)]
    exact getKey?_dictInsert_self _ _ _
  · rw [foldl_relationAttrStep_preserves _ _ _ _ (by decide),
      getKey?_dictInsert_ne _ _ _ _ (by decide),
      getKey?_dictInsert_ne _ _ _ _ (by decide)]
    exact getKey?_dictInsert_self _ _ _

/-- C3: converting a PROV-JSON document with exactly one entity entry,
one activity entry and one wasGeneratedBy entry yields a PROV-JSONLD
document whose `@graph` holds exactly three objects typed prov:Entity,
prov:Activity and prov:Generation respectively, the Generation object's
`activity`/`entity` fields equal to the input record's `prov:activity`/
`prov:entity` values. -/
theorem prov2ld_roundtrip_generation
    (doc : Obj) (eid aid gid : String) (efs afs gfs : Obj) (av ev : JValue)
    (hent : getKey? doc "entity" = some (jobj [(eid, jobj efs)]))
    (hact : getKey? doc "activity" = some (jobj [(aid, jobj afs)]))
    (hgen : getKey? doc "wasGeneratedBy" = some (jobj [(gid, jobj gfs)]))
    (hbundle : getKey? doc "bundle" = none)
    (habs : ∀ c ∈ ["agent", "used", "wasInformedBy", "wasStartedBy",
      "wasEndedBy", "wasInvalidatedBy", "wasDerivedFrom",
      "wasAttributedTo", "wasAssociatedWith", "actedOnBehalfOf",
      "wasInfluencedBy", "specializationOf", "alternateOf", "hadMember"],
      getKey? doc c = none)
    (hgact : getKey? gfs "prov:activity" = some av)
    (hgent : getKey? gfs "prov:entity" = some ev) :
    ∃ o1 o2 o3 : Obj,
      getKey? (p2lConvert doc) "@graph" =
        some (jarr [jobj o1, jobj o2, jobj o3]) ∧
      getKey? o1 "@type" = some (jstr "prov:Entity") ∧
      getKey? o2 "@type" = some (jstr "prov:Activity") ∧
      getKey? o3 "@type" = some (jstr "prov:Generation") ∧
      getKey? o3 "activity" = some av ∧
      getKey? o3 "entity" = some ev := by
  have h01 := habs "agent" (by simp)
  have h02 := habs "used" (by simp)
  have h03 := habs "wasInformedBy" (by simp)
  have h04 := habs "wasStartedBy" (by simp)
  have h05 := habs "wasEndedBy" (by simp)
  have h06 := habs "wasInvalidatedBy" (by simp)
  have h07 := habs "wasDerivedFrom" (by simp)
  have h08 := habs "wasAttributedTo" (by simp)
  have h09 := habs "wasAssociatedWith" (by simp)
  have h10 := habs "actedOnBehalfOf" (by simp)
  have h11 := habs "wasInfluencedBy" (by simp)
  have h12 := habs "specializationOf" (by simp)
  have h13 := habs "alternateOf" (by simp)
  have h14 := habs "hadMember" (by simp)
  refine ⟨convertItem eid (jobj efs) "prov:Entity" "entity",
          convertItem aid (jobj afs) "prov:Activity" "activity",
          convertItem gid (jobj gfs) "prov:Generation" "wasGeneratedBy",
          ?_, ?_, ?_, ?_, ?_, ?_⟩
  · simp only [p2lConvert, TYPE_MAPPINGS, convertCategories, hbundle,
      hent, hact, hgen, h01, h02, h03, h04, h05, h06, h07, h08, h09,
      h10, h11, h12, h13, h14, convertCategory, List.map_cons,
      List.map_nil, List.nil_append, List.append_nil]
    rfl
  · show getKey? (convertElement eid (jobj efs) "prov:Entity") "@type" = _
    exact convertElement_type eid efs "prov:Entity"
  · show getKey? (convertElement aid (jobj afs) "prov:Activity") "@type" = _
    exact convertElement_type aid afs "prov:Activity"
  · exact (convertRelation_wgb_fields gid "prov:Generation" gfs av ev
      hgact hgent).1
  · exact (convertRelation_wgb_fields gid "prov:Generation" gfs av ev
      hgact hgent).2.1
  · exact (convertRelation_wgb_fields gid "prov:Generation" gfs av ev
      hgact hgent).2.2

/-- Witness for C3 at a concrete three-record document. -/
theorem prov2ld_roundtrip_generation_witness :
    ∃ o1 o2 o3 : Obj,
      getKey? (p2lConvert
        [("entity", jobj [("ex:e1", jobj [])]),
         ("activity", jobj [("ex:a1", jobj [])]),
         ("wasGeneratedBy", jobj [("_:g1", jobj
           [("prov:entity", jstr "ex:e1"),
            ("prov:activity", jstr "ex:a1")])])]) "@graph" =
        some (jarr [jobj o1, jobj o2, jobj o3]) ∧
      getKey? o1 "@type" = some (jstr "prov:Entity") ∧
      getKey? o2 "@type" = some (jstr "prov:Activity") ∧
      getKey? o3 "@type" = some (jstr "prov:Generation") ∧
      getKey? o3 "activity" = some (jstr "ex:a1") ∧
      getKey? o3 "entity" = some (jstr "ex:e1") :=
  prov2ld_roundtrip_generation _ "ex:e1" "ex:a1" "_:g1" [] []
    [("prov:entity", jstr "ex:e1"), ("prov:activity", jstr "ex:a1")]
    (jstr "ex:a1") (jstr "ex:e1")
    rfl rfl rfl rfl (by intro c hc; fin_cases hc <;> rfl) rfl rfl

theorem edgeLabel_prefix (item : Obj) (rt : String) (sty : EdgeStyle)
    (hsty : edgeStyle? rt = some sty) :
    ∃ rest : String, edgeLabel item rt = sty.label ++ rest := by
  unfold edgeLabel
  rw [hsty]
  cases h : extraInfo item with
  | nil => exact ⟨"", (String.append_empty _).symm⟩
  | cons a l =>
      refine ⟨"\\n(" ++ strJoin ", " (a :: l) ++ ")", ?_⟩
      simp [String.append_assoc]

/-- C1: a graph item typed prov:Derivation carrying usedEntity "e1" and
generatedEntity "e2" yields exactly one appended edge with source "e1",
target "e2", and a label beginning with "wasDerivedFrom". -/
theorem viz_derivation_edge (st : VizState) (item : Obj)
    (hlab : st.showRelationLabels = true)
    (hty : getKey? item "@type" = some (jstr "prov:Derivation"))
    (hu : getKey? item "usedEntity" = some (jstr "e1"))
    (hg : getKey? item "generatedEntity" = some (jstr "e2")) :
    ∃ e : Edge,
      (processItem st (jobj item)).edges = st.edges ++ [e] ∧
      e.source = jstr "e1" ∧ e.target = jstr "e2" ∧
      ∃ rest : String, e.label = some ("wasDerivedFrom" ++ rest) := by
  have hdisp : processItem st (jobj item) =
      processSimpleRelation st item "prov:Derivation" := by
    unfold processItem
    dsimp only
    rw [hty]
    rfl
  have hend : getEdgeEndpoints item "prov:Derivation" =
      (getKey? item "usedEntity", getKey? item "generatedEntity") := rfl
  rw [hdisp]
  simp only [processSimpleRelation, hend, hu, hg]
  simp only [truthy, JValue.falsy, Bool.and_self, String.reduceEq,
    Bool.not_false, if_true]
  refine ⟨_, rfl, rfl, rfl, ?_⟩
  simp only [hlab, if_true]
  obtain ⟨rest, hrest⟩ := edgeLabel_prefix item "prov:Derivation"
    { label := "wasDerivedFrom", style := "solid", dir := "back" } rfl
  exact ⟨rest, by rw [hrest]⟩

/-- Witness for C1 on a concrete derivation item. -/
theorem viz_derivation_edge_witness :
    ∃ e : Edge,
      (processItem (initViz true "LR") (jobj
        [("@type", jstr "prov:Derivation"),
         ("usedEntity", jstr "e1"),
         ("generatedEntity", jstr "e2")])).edges =
        (initViz true "LR").edges ++ [e] ∧
      e.source = jstr "e1" ∧ e.target = jstr "e2" ∧
      ∃ rest : String, e.label = some ("wasDerivedFrom" ++ rest) :=
  viz_derivation_edge (initViz true "LR")
    [("@type", jstr "prov:Derivation"), ("usedEntity", jstr "e1"),
     ("generatedEntity", jstr "e2")] rfl rfl rfl rfl

theorem endpointKeys_not_node (rt k1 k2 : String)
    (hek : ENDPOINT_KEYS rt = some (k1, k2)) :
    lookupStr NODE_SHAPES rt = none ∧
    (strStartsWith rt "prov:" || strStartsWith rt "provext:") = true := by
  unfold ENDPOINT_KEYS at hek
  by_cases h01 : rt = "prov:Generation"
  · subst h01; exact ⟨by decide, by decide⟩
  by_cases h02 : rt = "prov:Usage"
  · subst h02; exact ⟨by decide, by decide⟩
  by_cases h03 : rt = "prov:Derivation"
  · subst h03; exact ⟨by decide, by decide⟩
  by_cases h04 : rt = "prov:Association"
  · subst h04; exact ⟨by decide, by decide⟩
  by_cases h05 : rt = "prov:Attribution"
  · subst h05; exact ⟨by decide, by decide⟩
  by_cases h06 : rt = "prov:Communication"
  · subst h06; exact ⟨by decide, by decide⟩
  by_cases h07 : rt = "prov:Delegation"
  · subst h07; exact ⟨by decide, by decide⟩
  by_cases h08 : rt = "prov:Start"
  · subst h08; exact ⟨by decide, by decide⟩
  by_cases h09 : rt = "prov:End"
  · subst h09; exact ⟨by decide, by decide⟩
  by_cases h10 : rt = "prov:Invalidation"
  · subst h10; exact ⟨by decide, by decide⟩
  by_cases h11 : rt = "prov:Influence"
  · subst h11; exact ⟨by decide, by decide⟩
  by_cases h12 : rt = "provext:Specialization"
  · subst h12; exact ⟨by decide, by decide⟩
  by_cases h13 : rt = "provext:Alternate"
  · subst h13; exact ⟨by decide, by decide⟩
  by_cases h14 : rt = "provext:Membership"
  · subst h14; exact ⟨by decide, by decide⟩
  rw [if_neg h01, if_neg h02, if_neg h03, if_neg h04, if_neg h05,
    if_neg h06, if_neg h07, if_neg h08, if_neg h09, if_neg h10,
    if_neg h11, if_neg h12, if_neg h13, if_neg h14] at hek
  exact Option.noConfusion hek

/-- C2: a graph item of a recognized relation type with an absent
endpoint property is dispatched to the relation path but appends no
edge: the builder state, the edge list, and hence the DOT output are
all unchanged — the relation is silently dropped. -/
theorem viz_missing_endpoint_drops_relation (st : VizState) (item : Obj)
    (rt k1 k2 : String)
    (hty : getKey? item "@type" = some (jstr rt))
    (hek : ENDPOINT_KEYS rt = some (k1, k2))
    (hmiss : getKey? item k1 = none ∨ getKey? item k2 = none) :
    processItem st (jobj item) = st ∧
    (processItem st (jobj item)).edges = st.edges ∧
    processSimpleRelation st item rt = st ∧
    generateDot (processItem st (jobj item)) = generateDot st := by
  have hend : getEdgeEndpoints item rt = (getKey? item k1, getKey? item k2) := by
    unfold getEdgeEndpoints
    rw [hek]
  have hstop : processSimpleRelation st item rt = st := by
    simp only [processSimpleRelation, hend]
    rcases hmiss with h | h <;> rw [h] <;> simp [truthy]
  obtain ⟨hnode, hrel⟩ := endpointKeys_not_node rt k1 k2 hek
  have hdisp : processItem st (jobj item) = processSimpleRelation st item rt := by
    simp only [processItem]
    rw [hty]
    show (if (lookupStr NODE_SHAPES rt).isSome = true then
            processNode st item rt
          else if (strStartsWith rt "prov:" ||
              strStartsWith rt "provext:") = true then
            processSimpleRelation st item rt
          else st) = processSimpleRelation st item rt
    rw [hnode, hrel]
    simp
  refine ⟨?_, ?_, hstop, ?_⟩
  · rw [hdisp]
    exact hstop
  · rw [hdisp, hstop]
  · rw [hdisp, hstop]

/-- Witness for C2: a Usage item with no endpoints at all is dropped by
the full dispatch. -/
theorem viz_missing_endpoint_drops_relation_witness :
    processItem (initViz true "LR")
      (jobj [("@type", jstr "prov:Usage")]) = initViz true "LR" ∧
    (processItem (initViz true "LR")
      (jobj [("@type", jstr "prov:Usage")])).edges =
      (initViz true "LR").edges ∧
    processSimpleRelation (initViz true "LR")
      [("@type", jstr "prov:Usage")] "prov:Usage" = initViz true "LR" ∧
    generateDot (processItem (initViz true "LR")
      (jobj [("@type", jstr "prov:Usage")])) =
      generateDot (initViz true "LR") :=
  viz_missing_endpoint_drops_relation (initViz true "LR")
    [("@type", jstr "prov:Usage")] "prov:Usage" "activity" "entity"
    rfl rfl (Or.inl rfl)

/-- C5: for a recognized relation item that emits an edge (labels are
always enabled: `show_relation_labels` is set to True in `__init__` and
never mutated), the edge label is the Registry's human label, with a
`role:<value>` annotation when `prov:role` is a value-object list and an
`@<HH:MM:SS>` annotation when the `time`/`prov:time` string contains the
'T' separator; the annotation block is joined to the label by the DOT
newline escape, and inside it the role annotation comes before the time
annotation. -/
theorem viz_edge_label_annotations (st : VizState) (item : Obj)
    (rt : String) (sty : EdgeStyle)
    (hlab : st.showRelationLabels = true)
    (hsty : edgeStyle? rt = some sty)
    (hsrc : truthy (getEdgeEndpoints item rt).1 = true)
    (htgt : truthy (getEdgeEndpoints item rt).2 = true) :
    ∃ e : Edge,
      (processSimpleRelation st item rt).edges = st.edges ++ [e] ∧
      (roleSuffixVal item = none → timeSuffixVal item = none →
        e.label = some sty.label) ∧
      (∀ r, roleSuffixVal item = some r → timeSuffixVal item = none →
        e.label = some (sty.label ++ "\\n(" ++ "role:" ++ pyStr r ++ ")")) ∧
      (∀ t, roleSuffixVal item = none → timeSuffixVal item = some t →
        e.label = some (sty.label ++ "\\n(" ++ "@" ++ t ++ ")")) ∧
      (∀ r t, roleSuffixVal item = some r → timeSuffixVal item = some t →
        e.label = some (sty.label ++ "\\n(" ++ "role:" ++ pyStr r ++
          ", " ++ "@" ++ t ++ ")")) := by
  simp only [processSimpleRelation, hsrc, htgt, Bool.and_self, if_true]
  refine ⟨_, rfl, ?_, ?_, ?_, ?_⟩
  · intro hr ht
    simp only [hlab, if_true, edgeLabel, hsty, extraInfo, hr, ht,
      List.nil_append]
  · intro r hr ht
    simp only [hlab, if_true, edgeLabel, hsty, extraInfo, hr, ht,
      List.append_nil, strJoin, String.append_assoc]
  · intro t hr ht
    simp only [hlab, if_true, edgeLabel, hsty, extraInfo, hr, ht,
      List.nil_append, strJoin, String.append_assoc]
  · intro r t hr ht
    simp only [hlab, if_true, edgeLabel, hsty, extraInfo, hr, ht,
      List.cons_append, List.nil_append, strJoin, String.append_assoc]

/-- Witness for C5: a Usage edge carrying both a role and a time
annotation gets the comma-separated annotation block, role first. -/
theorem viz_edge_label_annotations_witness :
    ∃ e : Edge,
      (processSimpleRelation (initViz true "LR")
        [("@type", jstr "prov:Usage"),
         ("activity", jstr "a1"), ("entity", jstr "e1"),
         ("prov:role", jarr [jobj [("@value", jstr "editor")]]),
         ("time", jstr "2020-01-01T10:30:00.5")] "prov:Usage").edges =
        (initViz true "LR").edges ++ [e] ∧
      e.label = some ("used" ++ "\\n(" ++ "role:" ++ pyStr (jstr "editor") ++
        ", " ++ "@" ++ "10:30:00" ++ ")") := by
  obtain ⟨e, h1, _, _, _, h4⟩ := viz_edge_label_annotations
    (initViz true "LR")
    [("@type", jstr "prov:Usage"),
     ("activity", jstr "a1"), ("entity", jstr "e1"),
     ("prov:role", jarr [jobj [("@value", jstr "editor")]]),
     ("time", jstr "2020-01-01T10:30:00.5")] "prov:Usage"
    { label := "used", style := "solid", dir := "forward",
      color := some "#8b0101" }
    rfl rfl rfl rfl
  exact ⟨e, h1, h4 (jstr "editor") "10:30:00" rfl rfl⟩

/-- Counterexample for C4: with namespaces mapping prefix "http" to IRI
"https:" and prefix "a" to IRI "http://", compacting "https://x" yields
"http://x", and compacting that again yields "a:x" — so compaction is
not idempotent for every namespace map. -/
theorem shortenUri_not_idempotent :
    shortenUri [("http", jstr "https:"), ("a", jstr "http://")]
      "https://x" = "http://x" ∧
    shortenUri [("http", jstr "https:"), ("a", jstr "http://")]
      "http://x" = "a:x" ∧
    shortenUri [("http", jstr "https:"), ("a", jstr "http://")]
      (shortenUri [("http", jstr "https:"), ("a", jstr "http://")]
        "https://x") ≠
      shortenUri [("http", jstr "https:"), ("a", jstr "http://")]
        "https://x" := by
  refine ⟨rfl, rfl, ?_⟩
  decide

/-- C4 as amended: any string not starting with `http://` or `https://`
passes through compaction unchanged, and consequently compaction is
idempotent whenever its result does not itself start with `http://` or
`https://` (the counterexample above shows the unconditional claim
fails when a prefix name reassembles an http IRI). -/
theorem shortenUri_passthrough_and_idempotent (ns : Obj) (s : String) :
    (strStartsWith s "http://" = false → strStartsWith s "https://" = false →
      shortenUri ns s = s) ∧
    (strStartsWith (shortenUri ns s) "http://" = false →
      strStartsWith (shortenUri ns s) "https://" = false →
      shortenUri ns (shortenUri ns s) = shortenUri ns s) := by
  have pass : ∀ u : String, strStartsWith u "http://" = false →
      strStartsWith u "https://" = false → shortenUri ns u = u := by
    intro u h1 h2
    unfold shortenUri
    by_cases hu : u = "" ∨ strContainsChar u ':' = false
    · rcases hu with hu | hu <;> simp [hu]
    · push_neg at hu
      simp [hu.1, hu.2, h1, h2]
  exact ⟨pass s, pass (shortenUri ns s)⟩

/-- Witness for the amended C4: an already-compacted name is unchanged,
once and twice. -/
theorem shortenUri_passthrough_and_idempotent_witness :
    shortenUri [("ex", jstr "http://example.org/")] "ex:doc" = "ex:doc" ∧
    shortenUri [("ex", jstr "http://example.org/")]
      (shortenUri [("ex", jstr "http://example.org/")] "ex:doc") =
      shortenUri [("ex", jstr "http://example.org/")] "ex:doc" :=
  ⟨(shortenUri_passthrough_and_idempotent
      [("ex", jstr "http://example.org/")] "ex:doc").1 (by decide) (by decide),
   (shortenUri_passthrough_and_idempotent
      [("ex", jstr "http://example.org/")] "ex:doc").2 (by decide) (by decide)⟩

/-- Scalar JSON values in the sense of C6: neither an object nor a
list. -/
def isScalar : JValue → Bool
  | jobj _ => false
  | jarr _ => false
  | _ => true

/-- Counterexample for C6: an input object carrying only a `lang` key
(no `$`, no `type`) is passed through unchanged by `_convert_value`; it
is not translated to an `@language` key as the claim states. -/
theorem convertValue_lang_only_not_translated :
    convertValue (jobj [("lang", jstr "en")]) =
      jarr [jobj [("lang", jstr "en")]] ∧
    getKey? [("lang", jstr "en")] "@language" = none := by
  exact ⟨rfl, rfl⟩

/-- C6 as amended: value conversion wraps every non-object scalar as a
one-key `@value` object with the stringified scalar; it translates an
input object only when it carries `$` or `type` (then `$`/`type`/`lang`
become `@value`/`@type`/`@language`), and passes objects with neither
`$` nor `type` through unchanged; label conversion always produces an
`@value` (empty string when `$` is absent), keeps `lang` as
`@language`, and never emits `@type`. -/
theorem convertValue_and_label_shape :
    (∀ v : JValue, isScalar v = true →
      convertValue v = jarr [jobj [("@value", jstr (pyStr v))]]) ∧
    (∀ fs : Obj, (hasKey fs "$" || hasKey fs "type") = true →
      ∃ c : Obj, convertValue (jobj fs) = jarr [jobj c] ∧
        getKey? c "@value" = getKey? fs "$" ∧
        getKey? c "@type" = getKey? fs "type" ∧
        getKey? c "@language" = getKey? fs "lang") ∧
    (∀ fs : Obj, hasKey fs "$" = false → hasKey fs "type" = false →
      convertValue (jobj fs) = jarr [jobj fs]) ∧
    (∀ fs : Obj,
      ∃ c : Obj, convertLabel (jobj fs) = jarr [jobj c] ∧
        getKey? c "@value" = some ((getKey? fs "$").getD (jstr "")) ∧
        getKey? c "@language" = getKey? fs "lang" ∧
        getKey? c "@type" = none) ∧
    (∀ v : JValue, isScalar v = true →
      convertLabel v = jarr [jobj [("@value", jstr (pyStr v))]]) := by
  refine ⟨?_, ?_, ?_, ?_, ?_⟩
  · intro v hv
    cases v <;> simp_all [isScalar] <;> rfl
  · intro fs hst
    have hcv : convertValue (jobj fs) = jarr [jobj
        ((match getKey? fs "$" with
          | some d => [("@value", d)]
          | none => []) ++
         (match getKey? fs "type" with
          | some t => [("@type", t)]
          | none => []) ++
         (match getKey? fs "lang" with
          | some l => [("@language", l)]
          | none => []))] := by
      simp only [convertValue, convertValueItem, hst, if_true]
    refine ⟨_, hcv, ?_, ?_, ?_⟩ <;>
      rcases hd : getKey? fs "$" with _ | d <;>
        rcases htp : getKey? fs "type" with _ | tp <;>
          rcases hl : getKey? fs "lang" with _ | l <;>
            simp_all [hasKey, getKey?]
  · intro fs h1 h2
    rcases hd : getKey? fs "$" with _ | d
    · rcases htp : getKey? fs "type" with _ | tp
      · simp [convertValue, convertValueItem, hasKey, hd, htp]
      · rw [hasKey, htp] at h2
        simp at h2
    · rw [hasKey, hd] at h1
      simp at h1
  · intro fs
    refine ⟨_, rfl, ?_, ?_, ?_⟩ <;>
      rcases hd : getKey? fs "$" with _ | d <;>
        rcases hl : getKey? fs "lang" with _ | l <;>
          simp [convertLabelItem, hd, hl, getKey?]
  · intro v hv
    cases v <;> simp_all [isScalar] <;> rfl

/-- Witness for the amended C6 at concrete inputs. -/
theorem convertValue_and_label_shape_witness :
    convertValue (jint 7) = jarr [jobj [("@value", jstr "7")]] ∧
    convertValue (jobj [("$", jstr "v"), ("type", jstr "xsd:int"),
        ("lang", jstr "en")]) =
      jarr [jobj [("@value", jstr "v"), ("@type", jstr "xsd:int"),
        ("@language", jstr "en")]] ∧
    convertLabel (jobj [("lang", jstr "en")]) =
      jarr [jobj [("@value", jstr ""), ("@language", jstr "en")]] :=
  ⟨convertValue_and_label_shape.1 (jint 7) rfl, rfl, rfl⟩

/-- Display-label resolution as the specification words it (section 4.5):
check `prov:label`, then `rdfs:label`, `foaf:name`, `dcterms:title`,
`name`, `title`, then fall back to the `@id` with any namespace prefix
stripped, and finally to the literal "anonymous".  Each property "yields
a value" under the source's extraction convention (`provLabelValue`
resp. `propLabelValue`). -/
def labelPrioritySpec (item : Obj) : JValue :=
  ((((((provLabelValue item).orElse
    (fun _ => propLabelValue item "rdfs:label")).orElse
    (fun _ => propLabelValue item "foaf:name")).orElse
    (fun _ => propLabelValue item "dcterms:title")).orElse
    (fun _ => propLabelValue item "name")).orElse
    (fun _ => propLabelValue item "title")).getD
    (idFallbackLabel item)

/-- C7: the node label of `_get_label` follows exactly the priority
order the specification states.  The hypothesis restricts the statement
to items whose `@id` (when present) is a string — a truthy non-string
`@id` would crash the Python code. -/
theorem getLabel_matches_spec_priority (item : Obj)
    (_hid : getKey? item "@id" = none ∨
      ∃ s : String, getKey? item "@id" = some (jstr s)) :
    getLabel item = labelPrioritySpec item := by
  unfold getLabel labelPrioritySpec firstPropLabel
  cases h0 : provLabelValue item <;>
    cases h1 : propLabelValue item "rdfs:label" <;>
      cases h2 : propLabelValue item "foaf:name" <;>
        cases h3 : propLabelValue item "dcterms:title" <;>
          cases h4 : propLabelValue item "name" <;>
            cases h5 : propLabelValue item "title" <;>
              simp [firstPropLabel, h0, h1, h2, h3, h4, h5, Option.orElse]

/-- Witness for C7 at an item carrying both an `rdfs:label` and a
`name`; the earlier property wins. -/
theorem getLabel_matches_spec_priority_witness :
    getLabel [("@id", jstr "ex:n"),
      ("rdfs:label", jarr [jstr "R"]), ("name", jarr [jstr "N"])] =
      labelPrioritySpec [("@id", jstr "ex:n"),
        ("rdfs:label", jarr [jstr "R"]), ("name", jarr [jstr "N"])] ∧
    getLabel [("@id", jstr "ex:n"),
      ("rdfs:label", jarr [jstr "R"]), ("name", jarr [jstr "N"])] =
      jstr "R" :=
  ⟨getLabel_matches_spec_priority
    [("@id", jstr "ex:n"), ("rdfs:label", jarr [jstr "R"]),
     ("name", jarr [jstr "N"])] (Or.inr ⟨"ex:n", rfl⟩), rfl⟩

/-- Counterexample for C8: for the identifier ":" the sanitized form is
"_", which is composed solely of alphanumerics and underscores, yet the
emitter does not output it bare — it quotes the original identifier,
because Python's `''.isalnum()` is False once the underscores are
stripped. -/
theorem makeSafeId_all_underscore_quoted :
    sanitizeId ":" = "_" ∧
    ("_" : String).toList.all (fun c => c.isAlphanum || c = '_') = true ∧
    makeSafeId ":" ≠ "_" ∧
    makeSafeId ":" = "\x22:\x22" := by
  refine ⟨rfl, by decide, by decide, rfl⟩

/-- C8 as amended, stated for ASCII identifiers (on which `pyIsAlnum`
coincides with Python's Unicode-aware `str.isalnum()`): identifiers are
sanitized by replacing `: / - . #` with underscore; the sanitized form
is emitted bare exactly when, after removing its underscores, a
nonempty alphanumeric string remains; otherwise (a remaining disallowed
character, or a sanitized form made only of underscores, or an empty
identifier) the original identifier is emitted quoted as a DOT string
literal. -/
theorem makeSafeId_quoting_rule (nodeId : String)
    (_hascii : nodeId.toList.all isAsciiChar = true) :
    (pyIsAlnum (removeChar (sanitizeId nodeId) '_') = true →
      makeSafeId nodeId = sanitizeId nodeId) ∧
    (pyIsAlnum (removeChar (sanitizeId nodeId) '_') = false →
      makeSafeId nodeId = "\x22" ++ nodeId ++ "\x22") := by
  constructor <;> intro h <;> simp [makeSafeId, h]

/-- Witness for the amended C8: "a b" is emitted quoted, "ex:doc" is
emitted bare as "ex_doc". -/
theorem makeSafeId_quoting_rule_witness :
    makeSafeId "a b" = "\x22a b\x22" ∧ makeSafeId "ex:doc" = "ex_doc" :=
  ⟨(makeSafeId_quoting_rule "a b" (by decide)).2 (by decide),
   (makeSafeId_quoting_rule "ex:doc" (by decide)).1 (by decide)⟩

/-- Counterexample for C9: when an explicit `@id` "anon_1" precedes two
anonymous node items, both anonymous items are keyed `anon_1` (the dict
size stalls at 1), so consecutive anonymous nodes do not receive
distinct identifiers and the DOT output holds a single node statement
for all three items. -/
theorem anonymous_id_collision :
    (buildViz true "LR" [("@graph", jarr
      [jobj [("@id", jstr "anon_1"), ("@type", jstr "prov:Entity")],
       jobj [("@type", jstr "prov:Entity")],
       jobj [("@type", jstr "prov:Entity")]])]).nodes.map Prod.fst =
      ["anon_1"] ∧
    (dotNodeLines (buildViz true "LR" [("@graph", jarr
      [jobj [("@id", jstr "anon_1"), ("@type", jstr "prov:Entity")],
       jobj [("@type", jstr "prov:Entity")],
       jobj [("@type", jstr "prov:Entity")]])])).length = 1 :=
  ⟨rfl, rfl⟩

/-- C9 as amended: an anonymous node item is registered under the
synthetic identifier `anon_<number of nodes so far>`; provided the
synthetic identifier is not already a key of the node table (as when no
item carries an explicit `@id` of that form), two consecutive anonymous
items receive distinct identifiers, both are registered, and each gets
its own DOT node statement. -/
theorem anonymous_nodes_distinct_when_fresh (st : VizState)
    (it1 it2 : Obj) (t1 t2 : String)
    (h1 : getKey? it1 "@id" = none) (h2 : getKey? it2 "@id" = none)
    (hf1 : ("anon_" ++ Nat.repr st.nodes.length) ∉ st.nodes.map Prod.fst)
    (hf2 : ("anon_" ++ Nat.repr (processNode st it1 t1).nodes.length) ∉
      (processNode st it1 t1).nodes.map Prod.fst) :
    nodeKey st it1 = "anon_" ++ Nat.repr st.nodes.length ∧
    nodeKey (processNode st it1 t1) it2 =
      "anon_" ++ Nat.repr (st.nodes.length + 1) ∧
    nodeKey st it1 ≠ nodeKey (processNode st it1 t1) it2 ∧
    (processNode (processNode st it1 t1) it2 t2).nodes.length =
      st.nodes.length + 2 ∧
    (dotNodeLines (processNode (processNode st it1 t1) it2 t2)).length =
      st.nodes.length + 2 := by
  have hk1 : nodeKey st it1 = "anon_" ++ Nat.repr st.nodes.length := by
    simp [nodeKey, h1]
  have hn1 : (processNode st it1 t1).nodes =
      st.nodes ++ [(nodeKey st it1, mkNodeProps st it1 t1)] := by
    simp only [processNode]
    exact dictInsert_of_fresh _ _ _ (by rw [hk1]; exact hf1)
  have hlen1 : (processNode st it1 t1).nodes.length =
      st.nodes.length + 1 := by
    rw [hn1]
    simp
  have hk2 : nodeKey (processNode st it1 t1) it2 =
      "anon_" ++ Nat.repr (st.nodes.length + 1) := by
    simp [nodeKey, h2, hlen1]
  have hmem1 : nodeKey st it1 ∈ (processNode st it1 t1).nodes.map Prod.fst := by
    rw [hn1]
    simp
  have hne : nodeKey st it1 ≠ nodeKey (processNode st it1 t1) it2 := by
    intro hEq
    apply hf2
    rw [← hlen1] at hk2
    rw [← hk2, ← hEq]
    exact hmem1
  have hfresh2 : nodeKey (processNode st it1 t1) it2 ∉
      (processNode st it1 t1).nodes.map Prod.fst := by
    have hkey : nodeKey (processNode st it1 t1) it2 =
        "anon_" ++ Nat.repr (processNode st it1 t1).nodes.length := by
      rw [hk2, hlen1]
    rw [hkey]
    exact hf2
  have hn2 : (processNode (processNode st it1 t1) it2 t2).nodes =
      (processNode st it1 t1).nodes ++
        [(nodeKey (processNode st it1 t1) it2,
          mkNodeProps (processNode st it1 t1) it2 t2)] := by
    have hdef : (processNode (processNode st it1 t1) it2 t2).nodes =
        dictInsert (processNode st it1 t1).nodes
          (nodeKey (processNode st it1 t1) it2)
          (mkNodeProps (processNode st it1 t1) it2 t2) := rfl
    rw [hdef]
    exact dictInsert_of_fresh _ _ _ hfresh2
  have hlen2 : (processNode (processNode st it1 t1) it2 t2).nodes.length =
      st.nodes.length + 2 := by
    rw [hn2]
    simp [hlen1]
  exact ⟨hk1, hk2, hne, hlen2, by simp [dotNodeLines, hlen2]⟩

/-- Witness for the amended C9: two anonymous entities from the empty
state get the keys "anon_0" and "anon_1" and two DOT node statements. -/
theorem anonymous_nodes_distinct_when_fresh_witness :
    nodeKey (initViz true "LR") [] = "anon_0" ∧
    nodeKey (processNode (initViz true "LR") [] "prov:Entity") [] =
      "anon_1" ∧
    nodeKey (initViz true "LR") [] ≠
      nodeKey (processNode (initViz true "LR") [] "prov:Entity") [] ∧
    (processNode (processNode (initViz true "LR") [] "prov:Entity")
      [] "prov:Agent").nodes.length = 2 ∧
    (dotNodeLines (processNode (processNode (initViz true "LR") []
      "prov:Entity") [] "prov:Agent")).length = 2 :=
  anonymous_nodes_distinct_when_fresh (initViz true "LR") [] []
    "prov:Entity" "prov:Agent" rfl rfl (by decide) (by decide)

theorem processSimpleRelation_nodes (st : VizState) (item : Obj)
    (rt : String) : (processSimpleRelation st item rt).nodes = st.nodes := by
  simp only [processSimpleRelation]
  split <;> rfl

theorem processNode_nodup (st : VizState) (item : Obj) (t : String)
    (h : (st.nodes.map Prod.fst).Nodup) :
    ((processNode st item t).nodes.map Prod.fst).Nodup :=
  nodup_keys_dictInsert _ _ _ h

theorem processItem_nodup (st : VizState) (it : JValue)
    (h : (st.nodes.map Prod.fst).Nodup) :
    ((processItem st it).nodes.map Prod.fst).Nodup := by
  cases it with
  | jobj fields =>
      rcases hty : getKey? fields "@type" with _ | v
      · simp only [processItem]
        rw [hty]
        exact h
      · cases v with
        | jstr t =>
            simp only [processItem]
            rw [hty]
            show (List.map Prod.fst
              (if (lookupStr NODE_SHAPES t).isSome = true then
                processNode st fields t
               else if (strStartsWith t "prov:" ||
                   strStartsWith t "provext:") = true then
                processSimpleRelation st fields t
               else st).nodes).Nodup
            split
            · exact processNode_nodup st fields t h
            · split
              · rw [processSimpleRelation_nodes]
                exact h
              · exact h
        | jnull => simp only [processItem]; rw [hty]; exact h
        | jbool b => simp only [processItem]; rw [hty]; exact h
        | jint n => simp only [processItem]; rw [hty]; exact h
        | jarr xs => simp only [processItem]; rw [hty]; exact h
        | jobj fs2 => simp only [processItem]; rw [hty]; exact h
  | jnull => exact h
  | jbool b => exact h
  | jint n => exact h
  | jstr s => exact h
  | jarr xs => exact h

theorem processGraph_nodup (items : List JValue) (st : VizState)
    (h : (st.nodes.map Prod.fst).Nodup) :
    ((processGraph st items).nodes.map Prod.fst).Nodup := by
  induction items generalizing st with
  | nil => exact h
  | cons it rest ih => exact ih (processItem st it) (processItem_nodup st it h)

/-- C10: the node table maps each identifier to at most one descriptor —
built from any document its key list is duplicate-free; registering an
item under an existing identifier overwrites the stored descriptor with
the later item's; and the DOT emitter outputs exactly one node statement
per table entry, hence one per distinct identifier. -/
theorem node_table_unique_ids :
    (∀ (st : VizState) (items : List JValue),
      (st.nodes.map Prod.fst).Nodup →
      ((processGraph st items).nodes.map Prod.fst).Nodup) ∧
    (∀ (sa : Bool) (dr : String) (doc : Obj),
      ((buildViz sa dr doc).nodes.map Prod.fst).Nodup) ∧
    (∀ (st : VizState) (item : Obj) (t i : String),
      getKey? item "@id" = some (jstr i) →
      alistFind? (processNode st item t).nodes i =
        some (mkNodeProps st item t)) ∧
    (∀ st : VizState, (dotNodeLines st).length = st.nodes.length) := by
  refine ⟨fun st items h => processGraph_nodup items st h, ?_, ?_, ?_⟩
  · intro sa dr doc
    exact processGraph_nodup _ _ (by simp [initViz])
  · intro st item t i hid
    have hk : nodeKey st item = i := by simp [nodeKey, hid]
    have hdef : (processNode st item t).nodes =
        dictInsert st.nodes (nodeKey st item) (mkNodeProps st item t) := rfl
    rw [hdef, hk]
    exact alistFind?_dictInsert_self _ _ _
  · intro st
    simp [dotNodeLines]

/-- Witness for C10: two items sharing `@id` "n" leave one key, and the
lookup returns the later item's descriptor. -/
theorem node_table_unique_ids_witness :
    ((processGraph (initViz true "LR")
      [jobj [("@id", jstr "n"), ("@type", jstr "prov:Entity")],
       jobj [("@id", jstr "n"), ("@type", jstr "prov:Agent")]]).nodes.map
        Prod.fst).Nodup ∧
    alistFind? (processNode
      (processNode (initViz true "LR")
        [("@id", jstr "n"), ("@type", jstr "prov:Entity")] "prov:Entity")
      [("@id", jstr "n"), ("@type", jstr "prov:Agent")] "prov:Agent").nodes
      "n" =
      some (mkNodeProps
        (processNode (initViz true "LR")
          [("@id", jstr "n"), ("@type", jstr "prov:Entity")] "prov:Entity")
        [("@id", jstr "n"), ("@type", jstr "prov:Agent")] "prov:Agent") :=
  ⟨node_table_unique_ids.1 (initViz true "LR")
      [jobj [("@id", jstr "n"), ("@type", jstr "prov:Entity")],
       jobj [("@id", jstr "n"), ("@type", jstr "prov:Agent")]]
      (by simp [initViz]),
   node_table_unique_ids.2.2.1
      (processNode (initViz true "LR")
        [("@id", jstr "n"), ("@type", jstr "prov:Entity")] "prov:Entity")
      [("@id", jstr "n"), ("@type", jstr "prov:Agent")] "prov:Agent" "n"
      rfl⟩
